import Mathlib

set_option maxRecDepth 100000

/-!
Verification development for the content script of a browser extension that
classifies coding-platform pages (LeetCode, Codeforces, GeeksforGeeks),
extracts problem metadata, and watches DOM mutations for submission verdicts.

The definitions below are a shallow embedding of `src/content/content.js`:
  * JavaScript string operations are modelled over `String`/`List Char`;
  * the anchored URL regular expressions and the unanchored verdict regexes
    are modelled by an executable regular-expression engine (Brzozowski
    derivatives), with character classes matching the JS classes;
  * the DOM is modelled as a tree of element/text nodes; a node delivered in
    a mutation batch is addressed by its path from the document root, so that
    `closest` (ancestor walk), `parentElement` and `querySelectorAll`
    derive consistently from one tree;
  * the mutation-observer callback becomes an explicit state-transition
    function on the observer's four mutable variables, with `Date.now()`
    passed in as a natural-number timestamp in milliseconds.
-/

/-! ## JavaScript string primitives -/

/-- The JS `\s` character class (WhiteSpace plus LineTerminator productions). -/
def jsWsChar (c : Char) : Bool :=
  c == ' ' || c == '\t' || c == '\n' || c == '\x0b' || c == '\x0c' ||
  c == '\r' || c == '\u00a0' || c == '\u1680' || c == '\u2000' ||
  c == '\u2001' || c == '\u2002' || c == '\u2003' || c == '\u2004' ||
  c == '\u2005' || c == '\u2006' || c == '\u2007' || c == '\u2008' ||
  c == '\u2009' || c == '\u200a' || c == '\u2028' || c == '\u2029' ||
  c == '\u202f' || c == '\u205f' || c == '\u3000' || c == '\ufeff'

/-- JS `String.prototype.trim`: strip the JS whitespace set from both ends. -/
def jsTrim (s : String) : String :=
  String.mk (((s.toList.dropWhile jsWsChar).reverse.dropWhile jsWsChar).reverse)

/-- Does list `h` begin with list `n`? (JS `startsWith` on char lists.) -/
def chStarts : List Char → List Char → Bool
  | [], _ => true
  | _ :: _, [] => false
  | a :: as, b :: bs => a == b && chStarts as bs

/-- Does list `h` contain `n` as a contiguous sublist? (JS `includes`.) -/
def chHasSub (n : List Char) : List Char → Bool
  | [] => chStarts n []
  | b :: bs => chStarts n (b :: bs) || chHasSub n bs

/-- JS `haystack.includes(needle)`. -/
def jsHasSub (haystack needle : String) : Bool :=
  chHasSub needle.toList haystack.toList

/-- JS `haystack.startsWith(needle)`. -/
def jsStarts (haystack needle : String) : Bool :=
  chStarts needle.toList haystack.toList

/-- JS `toLowerCase`, restricted to the ASCII range used by the script. -/
def jsLower (s : String) : String := String.mk (s.toList.map Char.toLower)

/-- JS `String.prototype.length` counts UTF-16 code units. -/
def jsLen (s : String) : Nat :=
  (s.toList.map (fun c => if c.toNat < 0x10000 then 1 else 2)).sum

/-! ## Regular-expression engine (Brzozowski derivatives)

`RE.cls` carries a character-class predicate; `reTest r s` decides whether
the whole string is in the language of `r`.  JS `RegExp.test` with a pattern
anchored by `^`/`$` is exactly full-string membership; for unanchored
patterns `reSearch` pads with an unconstrained prefix and suffix. -/

inductive RE where
  | zero : RE
  | eps : RE
  | cls : (Char → Bool) → RE
  | alt : RE → RE → RE
  | cat : RE → RE → RE
  | star : RE → RE

def RE.isZero : RE → Bool
  | .zero => true
  | _ => false

def RE.isEps : RE → Bool
  | .eps => true
  | _ => false

/-- Alternation with `zero` pruned (language-preserving simplification). -/
def reAlt (a b : RE) : RE :=
  if a.isZero then b else if b.isZero then a else RE.alt a b

/-- Concatenation with `zero`/`eps` pruned (language-preserving). -/
def reCat (a b : RE) : RE :=
  if a.isZero then RE.zero
  else if b.isZero then RE.zero
  else if a.isEps then b
  else if b.isEps then a
  else RE.cat a b

def RE.nullable : RE → Bool
  | .zero => false
  | .eps => true
  | .cls _ => false
  | .alt a b => a.nullable || b.nullable
  | .cat a b => a.nullable && b.nullable
  | .star _ => true

def RE.deriv : RE → Char → RE
  | .zero, _ => .zero
  | .eps, _ => .zero
  | .cls p, c => if p c then .eps else .zero
  | .alt a b, c => reAlt (a.deriv c) (b.deriv c)
  | .cat a b, c =>
      if a.nullable then reAlt (reCat (a.deriv c) b) (b.deriv c)
      else reCat (a.deriv c) b
  | .star a, c => reCat (a.deriv c) (.star a)

def reRun : RE → List Char → Bool
  | r, [] => r.nullable
  | r, c :: cs => reRun (r.deriv c) cs

/-- Full-string match (JS `test` of a `^...$`-anchored pattern). -/
def reTest (r : RE) (s : String) : Bool := reRun r s.toList

def reChr (c : Char) : RE := RE.cls (fun x => x == c)

def reLit (s : String) : RE := s.toList.foldr (fun c r => reCat (reChr c) r) RE.eps

def reSeq (rs : List RE) : RE := rs.foldr reCat RE.eps

def reOpt (r : RE) : RE := RE.alt RE.eps r

def rePlus (r : RE) : RE := reCat r (RE.star r)

/-- The JS `.` class: any character except line terminators. -/
def jsDotChar (c : Char) : Bool :=
  !(c == '\n' || c == '\r' || c == '\u2028' || c == '\u2029')

/-- JS unanchored `test`: some substring matches `r`. -/
def reSearch (r : RE) (s : String) : Bool :=
  reRun (reSeq [RE.star (RE.cls (fun _ => true)), r, RE.star (RE.cls (fun _ => true))]) s.toList

/-! ## URL pattern tables (content.js lines 12-36) -/

def reScheme : RE := reSeq [reLit "http", reOpt (reChr 's'), reLit "://"]

def reWwwOpt : RE := reOpt (reLit "www.")

/-- The `(\?.*)?$` tail shared by the URL patterns. -/
def reQueryOpt : RE := reOpt (reSeq [reChr '?', RE.star (RE.cls jsDotChar)])

def notSlash (c : Char) : Bool := !(c == '/')

/-- `^https?:\/\/(www\.)?leetcode\.com\/problems\/[^/]+\/?(\?.*)?$` -/
def leetcodeProblemsRE : RE :=
  reSeq [reScheme, reWwwOpt, reLit "leetcode.com/problems/",
         rePlus (RE.cls notSlash), reOpt (reChr '/'), reQueryOpt]

/-- `^https?:\/\/(www\.)?codeforces\.com\/problemset\/problem\/\d+\/[A-Za-z0-9]+(\?.*)?$` -/
def cfProblemsetRE : RE :=
  reSeq [reScheme, reWwwOpt, reLit "codeforces.com/problemset/problem/",
         rePlus (RE.cls Char.isDigit), reChr '/',
         rePlus (RE.cls Char.isAlphanum), reQueryOpt]

/-- `^https?:\/\/(www\.)?codeforces\.com\/contest\/\d+\/problem\/[A-Za-z0-9]+(\?.*)?$` -/
def cfContestRE : RE :=
  reSeq [reScheme, reWwwOpt, reLit "codeforces.com/contest/",
         rePlus (RE.cls Char.isDigit), reLit "/problem/",
         rePlus (RE.cls Char.isAlphanum), reQueryOpt]

/-- `^https?:\/\/(www\.)?codeforces\.com\/problemset\/status(\/.*)?(\?.*)?$` -/
def cfProblemsetStatusRE : RE :=
  reSeq [reScheme, reWwwOpt, reLit "codeforces.com/problemset/status",
         reOpt (reSeq [reChr '/', RE.star (RE.cls jsDotChar)]), reQueryOpt]

/-- `^https?:\/\/(www\.)?codeforces\.com\/contest\/\d+\/status(\?.*)?$` -/
def cfContestStatusRE : RE :=
  reSeq [reScheme, reWwwOpt, reLit "codeforces.com/contest/",
         rePlus (RE.cls Char.isDigit), reLit "/status", reQueryOpt]

/-- `^https?:\/\/(www\.)?geeksforgeeks\.org\/problems\/[^/]+\/\d+(\?.*)?$` -/
def gfgProblemsRE : RE :=
  reSeq [reScheme, reWwwOpt, reLit "geeksforgeeks.org/problems/",
         rePlus (RE.cls notSlash), reChr '/', rePlus (RE.cls Char.isDigit), reQueryOpt]

/-- `^https?:\/\/practice\.geeksforgeeks\.org\/problems\/[^/]+\/\d+(\?.*)?$` -/
def gfgPracticeRE : RE :=
  reSeq [reScheme, reLit "practice.geeksforgeeks.org/problems/",
         rePlus (RE.cls notSlash), reChr '/', rePlus (RE.cls Char.isDigit), reQueryOpt]

/-- Supported platform identifiers, in the table's key order. -/
inductive Platform where
  | leetcode : Platform
  | codeforces : Platform
  | gfg : Platform
deriving DecidableEq, Repr

/-- `URL_PATTERNS` (content.js lines 12-26). -/
def URL_PATTERNS : Platform → List RE
  | .leetcode => [leetcodeProblemsRE]
  | .codeforces => [cfProblemsetRE, cfContestRE, cfProblemsetStatusRE, cfContestStatusRE]
  | .gfg => [gfgProblemsRE, gfgPracticeRE]

/-- `SUBMISSION_PAGE_PATTERNS` (lines 31-36): only Codeforces has entries;
the `?? false` in `detectPlatform` makes a missing entry behave as `[]`. -/
def SUBMISSION_PAGE_PATTERNS : Platform → List RE
  | .codeforces => [cfProblemsetStatusRE, cfContestStatusRE]
  | _ => []

/-- `DOM_MARKERS` (lines 42-46). -/
def DOM_MARKERS : Platform → List String
  | .leetcode => ["[data-cy=\"question-title\"]", ".question-content", "[data-key=\"description\"]"]
  | .codeforces => [".problem-statement", ".problemindexholder", "#pageContent"]
  | .gfg => []

/-- `urlMatches` (lines 54-56). -/
def urlMatches (url : String) (patterns : List RE) : Bool :=
  patterns.any (fun p => reTest p url)

/-- `domMatches` (lines 63-71).  The document is abstracted as a selector
oracle `q`; the `try/catch` that turns a selector failure into `false` is
absorbed into `q` being a total boolean function. -/
def domMatches (selectors : List String) (q : String → Bool) : Bool :=
  selectors.any q

/-- Result shape of `detectPlatform` (line 77). -/
structure PageClassification where
  platform : Option Platform
  problemPage : Bool
  submissionPage : Bool
deriving DecidableEq, Repr

/-- `hasDomMarker` of the loop body (lines 88-89): `true` when the marker
list is empty, else the DOM query result. -/
def hasDomMarkerFor (p : Platform) (q : String → Bool) : Bool :=
  if (DOM_MARKERS p).isEmpty then true else domMatches (DOM_MARKERS p) q

/-- `isSubmissionPage` of the loop body (lines 90-91): the platform's
dedicated submission-URL patterns, `?? false` when absent. -/
def submissionUrlFor (p : Platform) (url : String) : Bool :=
  (SUBMISSION_PAGE_PATTERNS p).any (fun pat => reTest pat url)

/-- The `for ... of Object.entries(URL_PATTERNS)` loop body of
`detectPlatform` (lines 83-97), over an explicit platform list. -/
def detectFirst (url : String) (q : String → Bool) : List Platform → PageClassification
  | [] => { platform := none, problemPage := false, submissionPage := false }
  | p :: rest =>
    if urlMatches url (URL_PATTERNS p) then
      { platform := some p, problemPage := hasDomMarkerFor p q,
        submissionPage := submissionUrlFor p url || hasDomMarkerFor p q }
    else detectFirst url q rest

/-- Key order of `Object.entries(URL_PATTERNS)`: insertion order. -/
def platformOrder : List Platform := [.leetcode, .codeforces, .gfg]

/-- `detectPlatform` (lines 79-100). -/
def detectPlatform (url : String) (q : String → Bool) : PageClassification :=
  detectFirst url q platformOrder

/-- Spec-side characterization (spec section 4.1): the first platform in the
fixed enumeration order whose problem-URL pattern set matches the URL. -/
def specFirstPlatform (url : String) : Option Platform :=
  platformOrder.find? (fun p => urlMatches url (URL_PATTERNS p))

/-! ## DOM model

A document is a tree of element and text nodes.  An element carries its raw
`class` attribute string, its other attributes, and its children.  A node
handed to the mutation callback is addressed by the path (list of child
indices) from the document root, so `parentElement`, `closest` and
`querySelectorAll` all derive from the same tree. -/

inductive DomNode where
  | elem : String → List (String × String) → List DomNode → DomNode
  | text : String → DomNode

/-- `nodeType === 1`. -/
def DomNode.isElem : DomNode → Bool
  | .elem _ _ _ => true
  | .text _ => false

mutual
/-- `textContent`: concatenation of all descendant text, in document order. -/
def DomNode.textContent : DomNode → String
  | .text s => s
  | .elem _ _ cs => textContentList cs
def textContentList : List DomNode → String
  | [] => ""
  | n :: ns => DomNode.textContent n ++ textContentList ns
end

/-- Node addressed by a path of child indices (empty path = the node itself). -/
def nodeAt : List Nat → DomNode → Option DomNode
  | [], n => some n
  | i :: p, .elem _ _ cs =>
      match cs.get? i with
      | some c => nodeAt p c
      | none => none
  | _ :: _, .text _ => none

/-- `textContent` of the node at a path (empty if the path is invalid). -/
def textAt (root : DomNode) (p : List Nat) : String :=
  match nodeAt p root with
  | some n => n.textContent
  | none => ""

mutual
/-- Paths (relative to the node) of all descendant elements, in document
order; this is `querySelectorAll("*")` as a path list. -/
def DomNode.elemDescPaths : DomNode → List (List Nat)
  | .text _ => []
  | .elem _ _ cs => elemDescPathsFrom 0 cs
def elemDescPathsFrom : Nat → List DomNode → List (List Nat)
  | _, [] => []
  | i, c :: cs =>
      (match c with
       | .elem _ _ _ => [i] :: (DomNode.elemDescPaths c).map (fun q => i :: q)
       | .text _ => []) ++ elemDescPathsFrom (i + 1) cs
end

/-- The CSS selectors the script uses: `.token`, `[class*="sub"]` and
`[attr="value"]`. -/
inductive Sel where
  | classTok : String → Sel
  | classContains : String → Sel
  | attrEq : String → String → Sel
deriving DecidableEq, Repr

/-- Class-attribute tokens (split on whitespace). -/
def classTokens (className : String) : List String :=
  (className.split (fun c => jsWsChar c)).filter (fun t => t ≠ "")

/-- Does an element with the given class string and attributes match a
selector? -/
def selMatch (className : String) (attrs : List (String × String)) : Sel → Bool
  | .classTok tok => (classTokens className).contains tok
  | .classContains sub => jsHasSub className sub
  | .attrEq k v =>
      match attrs.lookup k with
      | some w => w == v
      | none => false

/-- Does the node at the given path match any selector of a comma group? -/
def pathSelMatch (root : DomNode) (p : List Nat) (sels : List Sel) : Bool :=
  match nodeAt p root with
  | some (.elem cn attrs _) => sels.any (selMatch cn attrs)
  | _ => false

/-- The path itself followed by the paths of its ancestors, nearest first. -/
def pathChain (p : List Nat) : List (List Nat) :=
  ((List.range (p.length + 1)).map (fun n => p.take n)).reverse

/-- `el.closest(sels)`: nearest ancestor-or-self element matching, as a path. -/
def closestPath (root : DomNode) (p : List Nat) (sels : List Sel) : Option (List Nat) :=
  (pathChain p).find? (fun q => pathSelMatch root q sels)

/-- `el.querySelector(sels)`: first matching descendant element, as a path. -/
def queryPath (root : DomNode) (p : List Nat) (sels : List Sel) : Option (List Nat) :=
  match nodeAt p root with
  | some n => (n.elemDescPaths.map (fun q => p ++ q)).find? (fun q => pathSelMatch root q sels)
  | none => none

/-- `node.nodeType === 1 ? node : node.parentElement` as a path; `none` when
a text node has no parent (detached root). -/
def elPath (root : DomNode) (p : List Nat) : Option (List Nat) :=
  match nodeAt p root with
  | some (.elem _ _ _) => some p
  | some (.text _) => if p.isEmpty then none else some p.dropLast
  | none => none

/-! ## Verdict classifiers (content.js lines 218-326) -/

/-- The inline accepted-rate pattern `/\d[\d,]*\s*Accepted\s*\/\s*[\d.]/`
(lines 227, 288, 295, 315), as an unanchored search. -/
def acceptedRateRE : RE :=
  reSeq [RE.cls Char.isDigit,
         RE.star (RE.cls (fun c => c.isDigit || c == ',')),
         RE.star (RE.cls jsWsChar),
         reLit "Accepted",
         RE.star (RE.cls jsWsChar),
         reChr '/',
         RE.star (RE.cls jsWsChar),
         RE.cls (fun c => c.isDigit || c == '.')]

def acceptedRateTest (s : String) : Bool := reSearch acceptedRateRE s

/-- Selector group of the LeetCode result container (line 228). -/
def leetResultSels : List Sel :=
  [.attrEq "data-e2e-locator" "console-result",
   .classContains "result-success",
   .classContains "submission-result"]

/-- Selector group `.verdict-accepted, .verdict-ok` (line 235). -/
def cfVerdictSels : List Sel := [.classTok "verdict-accepted", .classTok "verdict-ok"]

/-- Selector `[class*="verdict-"]` (lines 283, 293). -/
def cfVerdictAnySels : List Sel := [.classContains "verdict-"]

/-- `SUCCESS_DETECTORS.leetcode` (lines 223-231). -/
def leetcodeSuccess (root : DomNode) (p : List Nat) : Bool :=
  match elPath root p with
  | none => false
  | some ep =>
    let fullText := textAt root ep
    if acceptedRateTest fullText then false
    else
      match closestPath root ep leetResultSels with
      | some rp =>
          if jsHasSub (textAt root rp) "Accepted" then true
          else jsTrim fullText == "Accepted"
      | none => jsTrim fullText == "Accepted"

/-- `SUCCESS_DETECTORS.codeforces` (lines 232-239). -/
def codeforcesSuccess (root : DomNode) (p : List Nat) : Bool :=
  match elPath root p with
  | none => false
  | some ep =>
    if (closestPath root ep cfVerdictSels).isSome || (queryPath root ep cfVerdictSels).isSome
    then true
    else
      let text := jsTrim (textAt root p)
      text == "Accepted" || text == "OK"

/-- `SUCCESS_DETECTORS.gfg` (lines 240-247). -/
def gfgSuccess (root : DomNode) (p : List Nat) : Bool :=
  let text := jsLower (jsTrim (textAt root p))
  jsHasSub text "all test cases passed" || jsHasSub text "success" || text == "correct"

/-- `SUCCESS_DETECTORS` dispatch (line 222). -/
def SUCCESS_DETECTORS : Platform → DomNode → List Nat → Bool
  | .leetcode => leetcodeSuccess
  | .codeforces => codeforcesSuccess
  | .gfg => gfgSuccess

/-- `ATTEMPT_PATTERNS` (lines 253-266). -/
def ATTEMPT_PATTERNS : Platform → List String
  | .leetcode =>
      ["Accepted", "Wrong Answer", "Time Limit Exceeded", "Runtime Error",
       "Compilation Error", "Memory Limit Exceeded", "Output Limit Exceeded"]
  | .codeforces =>
      ["Accepted", "OK", "Wrong answer", "Time limit exceeded", "Runtime error",
       "Memory limit exceeded", "Compilation error", "Hacked", "Partial"]
  | .gfg =>
      ["All test cases passed", "Success", "Correct", "Wrong Answer",
       "Time Limit Exceeded", "Runtime Error"]

/-- `isAttemptText` (lines 268-273); the table always has an entry for the
three platforms, so the `!patterns` guard is unreachable. -/
def isAttemptText (text : String) (pf : Platform) : Bool :=
  let t := jsTrim text
  (ATTEMPT_PATTERNS pf).any (fun pat => t == pat || jsHasSub t pat)

/-- Per-child body of the inner loop of `checkNodesForAttempt`
(lines 292-298); `continue` on the accepted-rate match means the child
contributes `false`. -/
def attemptChild (root : DomNode) (pf : Platform) (q : List Nat) : Bool :=
  (pf = Platform.codeforces && (closestPath root q cfVerdictAnySels).isSome) ||
  (isAttemptText (textAt root q) pf &&
    !(pf = Platform.leetcode && acceptedRateTest (textAt root q)))

/-- Per-node body of `checkNodesForAttempt` (lines 279-299).  A `continue`
at the node level (line 288) skips the children loop for that node. -/
def attemptNode (root : DomNode) (pf : Platform) (p : List Nat) : Bool :=
  match nodeAt p root with
  | some (.elem _ _ _) =>
    if pf = Platform.codeforces &&
       ((closestPath root p cfVerdictAnySels).isSome ||
        (queryPath root p cfVerdictAnySels).isSome) then true
    else
      let text := jsTrim (textAt root p)
      if isAttemptText text pf then
        !(pf = Platform.leetcode && acceptedRateTest text)
      else
        match nodeAt p root with
        | some n => n.elemDescPaths.any (fun q => attemptChild root pf (p ++ q))
        | none => false
  | _ => false

/-- `checkNodesForAttempt` (lines 278-301) over a batch of node paths. -/
def checkNodesForAttempt (root : DomNode) (added : List (List Nat)) (pf : Platform) : Bool :=
  added.any (attemptNode root pf)

/-- The gfg regex `/all test cases passed|success|^correct$/i` (line 317). -/
def gfgTextNodeTest (t : String) : Bool :=
  let l := jsLower t
  jsHasSub l "all test cases passed" || jsHasSub l "success" || l == "correct"

/-- Per-node body of `checkNodesForSuccess` (lines 310-324). -/
def successNode (root : DomNode) (pf : Platform) (p : List Nat) : Bool :=
  match nodeAt p root with
  | none => false
  | some n =>
    (n.isElem && SUCCESS_DETECTORS pf root p) ||
    (match n with
     | .text s =>
       let text := jsTrim s
       let parentText :=
         if p.isEmpty then "" else textAt root p.dropLast
       (pf = Platform.leetcode && text == "Accepted" && !acceptedRateTest parentText) ||
       (pf = Platform.codeforces && (text == "Accepted" || text == "OK")) ||
       (pf = Platform.gfg && gfgTextNodeTest text)
     | _ => false) ||
    (n.isElem && n.elemDescPaths.any (fun q => SUCCESS_DETECTORS pf root (p ++ q)))

/-- `checkNodesForSuccess` (lines 306-326) over a batch of node paths. -/
def checkNodesForSuccess (root : DomNode) (added : List (List Nat)) (pf : Platform) : Bool :=
  added.any (successNode root pf)

/-! ## Submission observer state machine (content.js lines 328-403)

The four module-level mutable variables become an explicit state record; the
mutation callback becomes a transition function taking `Date.now()` as a
millisecond timestamp.  JS subtraction under the comparisons used here
agrees with truncated `Nat` subtraction: a negative JS difference fails
`>= k` and satisfies `< k`, exactly as `Nat` subtraction saturating to `0`
does. -/

def SOLVE_COOLDOWN_MS : Nat := 3000

def ATTEMPT_COOLDOWN_MS : Nat := 1500

/-- `lastSolveEmit`, `lastAttemptEmit`, `solveStartTime`, `submissionAttempts`
(lines 332-335); `solveStartTime = none` models `null`. -/
structure ObserverState where
  lastSolveEmit : Nat
  lastAttemptEmit : Nat
  solveStartTime : Option Nat
  submissionAttempts : Nat
deriving DecidableEq, Repr

/-- The variables' initial values (lines 332-335). -/
def initialObserverState : ObserverState :=
  { lastSolveEmit := 0, lastAttemptEmit := 0, solveStartTime := none,
    submissionAttempts := 0 }

/-- `startSolveTimer` (lines 340-344). -/
def startSolveTimer (s : ObserverState) (now : Nat) : ObserverState :=
  if s.solveStartTime = none then { s with solveStartTime := some now } else s

/-- `getSolveStats` (lines 349-355).  `Math.round((now - t0) / 1000)` on a
non-negative integer millisecond difference is `(now - t0 + 500) / 1000` in
integer arithmetic (round half up); at the inputs considered here the JS
float quotient is exact. -/
def getSolveStats (s : ObserverState) (now : Nat) : Nat × Nat :=
  (match s.solveStartTime with
   | some t0 => (now - t0 + 500) / 1000
   | none => 0,
   s.submissionAttempts)

/-- The payload built by `emitSolveDetected` (lines 360-365). -/
structure SolvePayload where
  solved : Bool
  timestamp : Nat
  timeSpent : Nat
  attempts : Nat
deriving DecidableEq, Repr

/-- `emitSolveDetected` (lines 360-365). -/
def emitSolveDetected (s : ObserverState) (now : Nat) : SolvePayload :=
  { solved := true, timestamp := now,
    timeSpent := (getSolveStats s now).1, attempts := (getSolveStats s now).2 }

/-- Lines 383-386: count an attempt when the attempt classifier fired and
the attempt cooldown has elapsed. -/
def attemptStep (attemptDetected : Bool) (now : Nat) (s : ObserverState) : ObserverState :=
  if attemptDetected ∧ ATTEMPT_COOLDOWN_MS ≤ now - s.lastAttemptEmit then
    { s with lastAttemptEmit := now,
             submissionAttempts := s.submissionAttempts + 1 }
  else s

/-- Lines 391-393: on a detected success, count the result unless the
attempt classifier fired and the (possibly just-updated) attempt timestamp
is still within the attempt cooldown. -/
def successCount (attemptDetected : Bool) (now : Nat) (s1 : ObserverState) : ObserverState :=
  if ¬attemptDetected ∨ ATTEMPT_COOLDOWN_MS ≤ now - s1.lastAttemptEmit then
    { s1 with submissionAttempts := s1.submissionAttempts + 1 }
  else s1

/-- The `MutationObserver` callback body (lines 374-397) for one mutation
batch.  `added` is the collected list of added-node paths of the batch; the
returned option is the emitted `SolveEvent`, if any. -/
def processBatch (pf : Platform) (root : DomNode) (added : List (List Nat))
    (now : Nat) (s : ObserverState) : ObserverState × Option SolvePayload :=
  if added.isEmpty then (s, none)
  else
    let attemptDetected := checkNodesForAttempt root added pf
    let s1 := attemptStep attemptDetected now s
    if now - s1.lastSolveEmit < SOLVE_COOLDOWN_MS then (s1, none)
    else if checkNodesForSuccess root added pf then
      let s3 := { successCount attemptDetected now s1 with lastSolveEmit := now }
      (s3, some (emitSolveDetected s3 now))
    else (s1, none)

/-! ## Metadata extractors (content.js lines 105-216)

Each extractor is embedded over a view structure listing exactly the DOM
reads the JS function performs (`querySelector` results as option-valued
text/class data, `querySelectorAll` results as text lists in document
order). -/

/-- `ProblemMetadata` shape (line 191); JS `null` is `none` and a present
string `s` (possibly empty) is `some s`. -/
structure ProblemMeta where
  title : Option String
  difficulty : Option String
  tags : List String
  url : Option String
  platform : Option Platform
deriving DecidableEq, Repr

/-- The `empty` record of `extractProblemMetadata` (lines 196-202). -/
def emptyMeta : ProblemMeta :=
  { title := none, difficulty := none, tags := [], url := none, platform := none }

/-- JS truthiness of `meta.title`: falsy when `null` or the empty string. -/
def titleFalsy : Option String → Bool
  | none => true
  | some s => s == ""

/-- First match of `/\/problems\/([^/]+)/` on a pathname: leftmost position
where the literal is followed by at least one non-`/` character; the greedy
`[^/]+` capture is the maximal such run. -/
def slugScan : List Char → Option String
  | [] => none
  | c :: cs =>
      if chStarts "/problems/".toList (c :: cs) then
        let rest := (c :: cs).drop "/problems/".length
        let run := rest.takeWhile notSlash
        if run.isEmpty then slugScan cs else some (String.mk run)
      else slugScan cs

/-- The captured slug with every hyphen replaced by a space (line 114). -/
def slugTitle (pathname : String) : Option String :=
  (slugScan pathname.toList).map
    (fun s => String.mk (s.toList.map (fun c => if c == '-' then ' ' else c)))

/-- Case-insensitive literal prefix test. -/
def ciStarts (pre : List Char) (l : List Char) : Bool :=
  chStarts (pre.map Char.toLower) (l.map Char.toLower)

/-- Case-insensitive substring test (JS `/lit/i.test`). -/
def ciHasSub (haystack needle : String) : Bool :=
  chHasSub (needle.toList.map Char.toLower) (haystack.toList.map Char.toLower)

/-- First match of `/text-difficulty-(easy|medium|hard)/i` on a class string:
the captured alternative, lowercased (line 120-121). -/
def diffClassScan : List Char → Option String
  | [] => none
  | c :: cs =>
      if ciStarts "text-difficulty-easy".toList (c :: cs) then some "easy"
      else if ciStarts "text-difficulty-medium".toList (c :: cs) then some "medium"
      else if ciStarts "text-difficulty-hard".toList (c :: cs) then some "hard"
      else diffClassScan cs

/-- Tag-collection loop shared by the extractors: trim, keep if the
platform-specific condition holds and the tag is not already present,
append at the end (first-seen order). -/
def tagFold (keep : String → Bool) (tagEls : List String) : List String :=
  tagEls.foldl
    (fun acc raw =>
      let tag := jsTrim raw
      if keep tag = true ∧ tag ∉ acc then acc ++ [tag] else acc)
    []

/-- LeetCode keeps any nonempty trimmed tag (line 127). -/
def leetTagKeep (tag : String) : Bool := tag != ""

/-- Codeforces drops the `*rating` pseudo-tag (line 149). -/
def cfTagKeep (tag : String) : Bool := tag != "" && !(jsStarts tag "*")

/-- GeeksforGeeks also bounds the UTF-16 length below 50 (line 180). -/
def gfgTagKeep (tag : String) : Bool := tag != "" && decide (jsLen tag < 50)

/-- DOM reads performed by `EXTRACTORS.leetcode` (lines 106-131). -/
structure LeetView where
  href : String
  pathname : String
  titleEl : Option String
  diffEl : Option (String × String)
  tagEls : List String

/-- `EXTRACTORS.leetcode` (lines 106-131).  `diffEl` carries the class
string and text content of the first `[class*="text-difficulty-"]` element. -/
def EXTRACTORS.leetcode (v : LeetView) : ProblemMeta :=
  let title0 : Option String := v.titleEl.map jsTrim
  let title1 : Option String :=
    if titleFalsy title0 then
      match slugTitle v.pathname with
      | some t => some t
      | none => title0
    else title0
  let difficulty : Option String :=
    match v.diffEl with
    | some (cls, txt) =>
        match diffClassScan cls.toList with
        | some word => some word
        | none => some (jsLower (jsTrim txt))
    | none => none
  { title := title1, difficulty := difficulty,
    tags := tagFold leetTagKeep v.tagEls,
    url := some v.href, platform := some Platform.leetcode }

/-- First match of `/\*(\d+)/` on the roundbox text: leftmost `*` followed
by at least one digit; the capture is the maximal digit run (line 143). -/
def ratingScan : List Char → Option String
  | [] => none
  | c :: cs =>
      if c == '*' then
        let run := cs.takeWhile Char.isDigit
        if run.isEmpty then ratingScan cs else some (String.mk run)
      else ratingScan cs

/-- Replace the first match of `/\s*-\s*Codeforces$/` by the empty string
(line 139): strip the earliest suffix of the form `ws* '-' ws* "Codeforces"`. -/
def stripCfTitleTail (s : String) : String :=
  match (List.range (s.toList.length + 1)).find?
      (fun i =>
        let tail := s.toList.drop i
        let t1 := tail.dropWhile jsWsChar
        match t1 with
        | '-' :: t2 => (t2.dropWhile jsWsChar) == "Codeforces".toList
        | _ => false) with
  | some i => String.mk (s.toList.take i)
  | none => s

/-- DOM reads performed by `EXTRACTORS.codeforces` (lines 133-154);
`roundbox` is `(textContent, tag-link texts)` of the `.roundbox` element. -/
structure CfView where
  href : String
  docTitle : String
  titleEl : Option String
  roundbox : Option (String × List String)

/-- `EXTRACTORS.codeforces` (lines 133-154). -/
def EXTRACTORS.codeforces (v : CfView) : ProblemMeta :=
  let title0 : Option String := v.titleEl.map jsTrim
  let title1 : Option String :=
    if titleFalsy title0 then some (stripCfTitleTail v.docTitle) else title0
  let difficulty : Option String :=
    match v.roundbox with
    | some (txt, _) => ratingScan txt.toList
    | none => none
  let tags : List String :=
    match v.roundbox with
    | some (_, tagTexts) => tagFold cfTagKeep tagTexts
    | none => []
  { title := title1, difficulty := difficulty, tags := tags,
    url := some v.href, platform := some Platform.codeforces }

/-- DOM reads performed by `EXTRACTORS.gfg` (lines 156-184). -/
structure GfgView where
  href : String
  pathname : String
  titleEl : Option String
  diffEl : Option String
  tagEls : List String

/-- `EXTRACTORS.gfg` (lines 156-184). -/
def EXTRACTORS.gfg (v : GfgView) : ProblemMeta :=
  let title0 : Option String := v.titleEl.map jsTrim
  let title1 : Option String :=
    if titleFalsy title0 then
      match slugTitle v.pathname with
      | some t => some t
      | none => title0
    else title0
  let difficulty : Option String :=
    match v.diffEl with
    | some txt =>
        let text := jsTrim txt
        if ciHasSub text "easy" then some "easy"
        else if ciHasSub text "medium" then some "medium"
        else if ciHasSub text "hard" then some "hard"
        else none
    | none => none
  { title := title1, difficulty := difficulty,
    tags := tagFold gfgTagKeep v.tagEls,
    url := some v.href, platform := some Platform.gfg }

/-- The `EXTRACTORS` table (lines 105-185) defines a strategy for each of
the three platforms, so `EXTRACTORS[platform]` is never `undefined` for a
detected platform. -/
def extractorDefined : Platform → Bool
  | .leetcode => true
  | .codeforces => true
  | .gfg => true

/-- `extractProblemMetadata` (lines 193-216).  Running the selected strategy
against the live document is a host interaction that may fail, so it is
abstracted as `exec : Platform → Except Unit ProblemMeta`; `.error`
models the strategy throwing (caught at line 212), `.ok` a normal return. -/
def extractProblemMetadata (url : String) (q : String → Bool)
    (exec : Platform → Except Unit ProblemMeta) : ProblemMeta :=
  let d := detectPlatform url q
  match d.platform with
  | none => emptyMeta
  | some p =>
    if d.problemPage = false then emptyMeta
    else if extractorDefined p = false then { emptyMeta with platform := some p }
    else
      match exec p with
      | .ok m => m
      | .error _ => { emptyMeta with platform := some p, url := some url }

/-! ## Claim C4: problemPage implies submissionPage -/

theorem detectFirst_problem_implies_submission (url : String) (q : String → Bool) :
    ∀ l : List Platform, (detectFirst url q l).problemPage = true →
      (detectFirst url q l).submissionPage = true := by
  intro l
  induction l with
  | nil => intro h; simp [detectFirst] at h
  | cons p rest ih =>
    intro h
    by_cases hm : urlMatches url (URL_PATTERNS p) = true
    · simp only [detectFirst, if_pos hm] at h ⊢
      rw [h, Bool.or_true]
    · simp only [detectFirst, if_neg hm] at h ⊢
      exact ih h

/-- C4: for every URL and selector oracle, the `PageClassification` returned
by `detectPlatform` has `submissionPage = true` whenever
`problemPage = true`. -/
theorem problemPage_implies_submissionPage (url : String) (q : String → Bool)
    (h : (detectPlatform url q).problemPage = true) :
    (detectPlatform url q).submissionPage = true :=
  detectFirst_problem_implies_submission url q platformOrder h

/-- Witness for C4 at a concrete GeeksforGeeks problem URL (no DOM markers,
so the page classifies as a problem page for any oracle). -/
theorem problemPage_implies_submissionPage_witness :
    (detectPlatform "https://practice.geeksforgeeks.org/problems/two-sum/1"
      (fun _ => false)).problemPage = true ∧
    (detectPlatform "https://practice.geeksforgeeks.org/problems/two-sum/1"
      (fun _ => false)).submissionPage = true :=
  ⟨by decide,
   problemPage_implies_submissionPage
     "https://practice.geeksforgeeks.org/problems/two-sum/1"
     (fun _ => false) (by decide)⟩

/-! ## Claim C9: first-match platform selection -/

/-- C9: `detectPlatform` returns the first platform, in the enumeration
order leetcode, codeforces, gfg, whose problem-URL pattern set matches, and
the all-none classification when no pattern set matches. -/
theorem detectPlatform_firstMatch (url : String) (q : String → Bool) :
    (detectPlatform url q).platform = specFirstPlatform url ∧
    (specFirstPlatform url = none →
      detectPlatform url q =
        { platform := none, problemPage := false, submissionPage := false }) := by
  constructor
  · show (detectFirst url q platformOrder).platform = platformOrder.find? _
    induction platformOrder with
    | nil => simp [detectFirst]
    | cons p rest ih =>
      by_cases hm : urlMatches url (URL_PATTERNS p) = true
      · simp [detectFirst, hm, List.find?]
      · simp only [detectFirst, List.find?] at ih ⊢
        rw [if_neg hm]
        simp only [Bool.not_eq_true] at hm
        rw [hm]
        exact ih
  · intro hnone
    show detectFirst url q platformOrder = _
    have : ∀ l : List Platform, l.find? (fun p => urlMatches url (URL_PATTERNS p)) = none →
        detectFirst url q l = { platform := none, problemPage := false, submissionPage := false } := by
      intro l
      induction l with
      | nil => intro _; rfl
      | cons p rest ih =>
        intro hl
        by_cases hm : urlMatches url (URL_PATTERNS p) = true
        · simp [List.find?, hm] at hl
        · simp only [List.find?] at hl
          simp only [Bool.not_eq_true] at hm
          rw [hm] at hl
          simp only [detectFirst]
          rw [if_neg (by simp [hm])]
          exact ih hl
    exact this platformOrder hnone

/-- Witness for C9 at a URL matching no platform pattern. -/
theorem detectPlatform_firstMatch_witness :
    detectPlatform "https://example.org/" (fun _ => false) =
      { platform := none, problemPage := false, submissionPage := false } :=
  (detectPlatform_firstMatch "https://example.org/" (fun _ => false)).2 (by decide)

/-! ## Observer state machine lemmas -/

/-- An empty batch never classifies as a success. -/
theorem checkNodesForSuccess_nil (root : DomNode) (pf : Platform) :
    checkNodesForSuccess root [] pf = false := rfl

theorem attemptStep_lastSolveEmit (att : Bool) (now : Nat) (s : ObserverState) :
    (attemptStep att now s).lastSolveEmit = s.lastSolveEmit := by
  unfold attemptStep; split <;> rfl

theorem attemptStep_solveStartTime (att : Bool) (now : Nat) (s : ObserverState) :
    (attemptStep att now s).solveStartTime = s.solveStartTime := by
  unfold attemptStep; split <;> rfl

theorem successCount_solveStartTime (att : Bool) (now : Nat) (s : ObserverState) :
    (successCount att now s).solveStartTime = s.solveStartTime := by
  unfold successCount; split <;> rfl

/-- `processBatch` never changes the solve timer. -/
theorem processBatch_solveStartTime (pf : Platform) (root : DomNode)
    (added : List (List Nat)) (now : Nat) (s : ObserverState) :
    (processBatch pf root added now s).1.solveStartTime = s.solveStartTime := by
  simp only [processBatch]
  split
  · rfl
  · split
    · exact attemptStep_solveStartTime _ _ _
    · split
      · show (successCount _ _ _).solveStartTime = _
        rw [successCount_solveStartTime, attemptStep_solveStartTime]
      · exact attemptStep_solveStartTime _ _ _

/-- While the solve cooldown is active, no `SolveEvent` is emitted. -/
theorem processBatch_suppress (pf : Platform) (root : DomNode)
    (added : List (List Nat)) (now : Nat) (s : ObserverState)
    (hlt : now < s.lastSolveEmit + SOLVE_COOLDOWN_MS) :
    (processBatch pf root added now s).2 = none := by
  simp only [processBatch]
  split
  · rfl
  · split
    · rfl
    · next h2 =>
      exfalso
      rw [attemptStep_lastSolveEmit] at h2
      simp only [SOLVE_COOLDOWN_MS] at h2 hlt
      omega

/-- Once the solve cooldown has elapsed, a success batch always emits a
`SolveEvent` with the fields determined by the pre-state, and records the
emission time. -/
theorem processBatch_emit (pf : Platform) (root : DomNode)
    (added : List (List Nat)) (now : Nat) (s : ObserverState)
    (hsucc : checkNodesForSuccess root added pf = true)
    (hcool : s.lastSolveEmit + SOLVE_COOLDOWN_MS ≤ now) :
    (processBatch pf root added now s).1.lastSolveEmit = now ∧
    (processBatch pf root added now s).2 =
      some { solved := true, timestamp := now,
             timeSpent :=
               match s.solveStartTime with
               | some t0 => (now - t0 + 500) / 1000
               | none => 0,
             attempts := (processBatch pf root added now s).1.submissionAttempts } := by
  have hne : added.isEmpty = false := by
    cases added with
    | nil => exact absurd hsucc (by simp [checkNodesForSuccess])
    | cons a rest => rfl
  have hnc : ¬(now - (attemptStep (checkNodesForAttempt root added pf) now s).lastSolveEmit
      < SOLVE_COOLDOWN_MS) := by
    rw [attemptStep_lastSolveEmit]
    simp only [SOLVE_COOLDOWN_MS] at hcool ⊢
    omega
  simp only [processBatch, hne, Bool.false_eq_true, if_false, if_neg hnc, hsucc, if_true]
  refine ⟨trivial, ?_⟩
  simp only [emitSolveDetected, getSolveStats]
  rw [successCount_solveStartTime, attemptStep_solveStartTime]

/-! ## Further observer lemmas -/

theorem processBatch_empty (pf : Platform) (root : DomNode) (now : Nat)
    (s : ObserverState) (added : List (List Nat)) (hne : added.isEmpty = true) :
    processBatch pf root added now s = (s, none) := by
  unfold processBatch; rw [if_pos hne]

theorem processBatch_attempts_counted (pf : Platform) (root : DomNode)
    (added : List (List Nat)) (now : Nat) (s : ObserverState)
    (hne : added.isEmpty = false)
    (hA : checkNodesForAttempt root added pf = true)
    (hAC : ATTEMPT_COOLDOWN_MS ≤ now - s.lastAttemptEmit) :
    (processBatch pf root added now s).1.submissionAttempts = s.submissionAttempts + 1 := by
  have hstep : attemptStep (checkNodesForAttempt root added pf) now s =
      { s with lastAttemptEmit := now, submissionAttempts := s.submissionAttempts + 1 } := by
    unfold attemptStep; rw [if_pos ⟨hA, hAC⟩]
  have hsc : successCount (checkNodesForAttempt root added pf) now
      { s with lastAttemptEmit := now, submissionAttempts := s.submissionAttempts + 1 } =
      { s with lastAttemptEmit := now, submissionAttempts := s.submissionAttempts + 1 } := by
    unfold successCount
    rw [if_neg]
    rintro (h | h)
    · exact h hA
    · simp only [ATTEMPT_COOLDOWN_MS] at h
      simp at h
  simp only [processBatch, hne, Bool.false_eq_true, if_false, hstep, hsc]
  split
  · rfl
  · split
    · rfl
    · rfl

theorem processBatch_attempts_notcounted (pf : Platform) (root : DomNode)
    (added : List (List Nat)) (now : Nat) (s : ObserverState)
    (hne : added.isEmpty = false)
    (hnc : ¬(checkNodesForAttempt root added pf = true ∧
        ATTEMPT_COOLDOWN_MS ≤ now - s.lastAttemptEmit)) :
    (processBatch pf root added now s).1.submissionAttempts = s.submissionAttempts ∨
    (processBatch pf root added now s).1.submissionAttempts = s.submissionAttempts + 1 := by
  have hstep : attemptStep (checkNodesForAttempt root added pf) now s = s := by
    unfold attemptStep; rw [if_neg hnc]
  simp only [processBatch, hne, Bool.false_eq_true, if_false, hstep]
  split
  · exact Or.inl rfl
  · split
    · show (successCount _ _ _).submissionAttempts = _ ∨
        (successCount _ _ _).submissionAttempts = _
      unfold successCount
      split
      · exact Or.inr rfl
      · exact Or.inl rfl
    · exact Or.inl rfl

/-! ## Claim C1 (amended): per-batch counting discipline -/

/-- C1 (amended): per mutation batch, `submissionAttempts` grows by at most
one; and when the success classifier fires after the solve cooldown, the
counter grows by exactly one provided the attempt classifier did not fire
or the attempt cooldown had elapsed on entry to the batch. -/
theorem submissionAttempts_perBatch (pf : Platform) (root : DomNode)
    (added : List (List Nat)) (now : Nat) (s : ObserverState) :
    (processBatch pf root added now s).1.submissionAttempts ≤ s.submissionAttempts + 1 ∧
    (checkNodesForSuccess root added pf = true →
      s.lastSolveEmit + SOLVE_COOLDOWN_MS ≤ now →
      (checkNodesForAttempt root added pf = false ∨
        ATTEMPT_COOLDOWN_MS ≤ now - s.lastAttemptEmit) →
      (processBatch pf root added now s).1.submissionAttempts = s.submissionAttempts + 1) := by
  by_cases hne : added.isEmpty = true
  · rw [processBatch_empty pf root now s added hne]
    refine ⟨Nat.le_succ _, ?_⟩
    intro hsucc _ _
    exfalso
    cases added with
    | nil => simp [checkNodesForSuccess] at hsucc
    | cons a l => simp at hne
  · replace hne : added.isEmpty = false := by simpa using hne
    constructor
    · by_cases hc : (checkNodesForAttempt root added pf = true ∧
          ATTEMPT_COOLDOWN_MS ≤ now - s.lastAttemptEmit)
      · rw [processBatch_attempts_counted pf root added now s hne hc.1 hc.2]
      · rcases processBatch_attempts_notcounted pf root added now s hne hc with h | h <;> omega
    · intro hsucc hcool hdisj
      by_cases hA : checkNodesForAttempt root added pf = true
      · have hAC : ATTEMPT_COOLDOWN_MS ≤ now - s.lastAttemptEmit := by
          rcases hdisj with h | h
          · rw [hA] at h; exact absurd h (by simp)
          · exact h
        exact processBatch_attempts_counted pf root added now s hne hA hAC
      · replace hA : checkNodesForAttempt root added pf = false := by
          simpa using hA
        have hstep : attemptStep (checkNodesForAttempt root added pf) now s = s := by
          unfold attemptStep
          rw [if_neg]
          rintro ⟨h, _⟩
          rw [hA] at h
          exact absurd h (by simp)
        have hsc : successCount (checkNodesForAttempt root added pf) now s =
            { s with submissionAttempts := s.submissionAttempts + 1 } := by
          unfold successCount
          rw [if_pos (Or.inl (by simp [hA]))]
        have hncool : ¬(now - (attemptStep (checkNodesForAttempt root added pf) now s).lastSolveEmit
            < SOLVE_COOLDOWN_MS) := by
          rw [attemptStep_lastSolveEmit]
          simp only [SOLVE_COOLDOWN_MS] at hcool ⊢
          omega
        simp only [processBatch, hne, Bool.false_eq_true, if_false, if_neg hncool,
          hsucc, if_true, hstep, hsc]
        rw [if_neg (by simp only [SOLVE_COOLDOWN_MS] at hcool ⊢; omega)]

/-! ## Concrete mutation-batch trees used by the scenario claims -/

/-- A detached subtree whose text is a "Wrong Answer" verdict marker. -/
def waTree : DomNode := .elem "" [] [.text "Wrong Answer"]

/-- A detached subtree whose text is an "Accepted" verdict marker. -/
def accTree : DomNode := .elem "" [] [.text "Accepted"]

/-! ## Claim C1 (counterexample): a success can go uncounted -/

/-- C1 as stated is false: starting from the initial state, a "Wrong Answer"
batch at t=10000 counts one attempt; an "Accepted" batch at t=11000 fires
the success classifier and emits a `SolveEvent`, the attempt classifier
causes no increment in that batch (the attempt cooldown is active), yet
`submissionAttempts` stays at 1 — the detected success is left uncounted. -/
theorem submissionAttempts_perBatch_cex :
    processBatch .leetcode waTree [[]] 10000 initialObserverState =
      ({ lastSolveEmit := 0, lastAttemptEmit := 10000, solveStartTime := none,
         submissionAttempts := 1 }, none) ∧
    checkNodesForSuccess accTree [[]] .leetcode = true ∧
    checkNodesForAttempt accTree [[]] .leetcode = true ∧
    (processBatch .leetcode accTree [[]] 11000
      { lastSolveEmit := 0, lastAttemptEmit := 10000, solveStartTime := none,
        submissionAttempts := 1 }).1.submissionAttempts = 1 ∧
    (processBatch .leetcode accTree [[]] 11000
      { lastSolveEmit := 0, lastAttemptEmit := 10000, solveStartTime := none,
        submissionAttempts := 1 }).2.isSome = true := by
  refine ⟨?_, ?_, ?_, ?_, ?_⟩ <;> decide

/-- Witness for the amended C1 at a concrete input: an "Accepted" batch at
t=5000 from the initial state (no attempt cooldown active) increments the
counter by exactly one. -/
theorem submissionAttempts_perBatch_witness :
    (processBatch .leetcode accTree [[]] 5000 initialObserverState).1.submissionAttempts =
      initialObserverState.submissionAttempts + 1 :=
  (submissionAttempts_perBatch .leetcode accTree [[]] 5000 initialObserverState).2
    (by decide) (by decide) (Or.inr (by decide))

/-! ## Claim C2: solve-cooldown deduplication -/

/-- C2: after a success emission at `t1`, a second success batch within
`SOLVE_COOLDOWN_MS` (3000 ms) of `t1` emits nothing, while a second success
batch 4000 ms after `t1` emits a second `SolveEvent`. -/
theorem solveCooldown_dedup (pf : Platform) (root : DomNode) (added : List (List Nat))
    (s0 : ObserverState) (t1 t2 : Nat)
    (hsucc : checkNodesForSuccess root added pf = true)
    (h1 : s0.lastSolveEmit + SOLVE_COOLDOWN_MS ≤ t1) :
    (processBatch pf root added t1 s0).2.isSome = true ∧
    (t2 < t1 + SOLVE_COOLDOWN_MS →
      (processBatch pf root added t2 (processBatch pf root added t1 s0).1).2 = none) ∧
    (processBatch pf root added (t1 + 4000)
        (processBatch pf root added t1 s0).1).2.isSome = true := by
  obtain ⟨hemit1, hsome1⟩ := processBatch_emit pf root added t1 s0 hsucc h1
  refine ⟨by rw [hsome1]; rfl, ?_, ?_⟩
  · intro hlt
    apply processBatch_suppress
    rw [hemit1]
    exact hlt
  · obtain ⟨_, hsome3⟩ := processBatch_emit pf root added (t1 + 4000)
      (processBatch pf root added t1 s0).1 hsucc
      (by rw [hemit1]; unfold SOLVE_COOLDOWN_MS; omega)
    rw [hsome3]
    rfl

/-- Witness for C2: concrete "Accepted" batches at t=5000, t=5500 (silent)
and t=9000 (second emission). -/
theorem solveCooldown_dedup_witness :
    (processBatch .leetcode accTree [[]] 5000 initialObserverState).2.isSome = true ∧
    (processBatch .leetcode accTree [[]] 5500
      (processBatch .leetcode accTree [[]] 5000 initialObserverState).1).2 = none ∧
    (processBatch .leetcode accTree [[]] 9000
      (processBatch .leetcode accTree [[]] 5000 initialObserverState).1).2.isSome = true := by
  obtain ⟨a, b, c⟩ := solveCooldown_dedup .leetcode accTree [[]] initialObserverState
    5000 5500 (by decide) (by decide)
  exact ⟨a, b (by decide), c⟩

/-! ## Claim C8: elapsed-time rounding -/

/-- C8: with the solve timer started at `t0` and no earlier solve emission,
a success batch processed at `t0 + 7500` emits a `SolveEvent` whose
`timeSpent` is exactly 8 (7500 ms rounded half-up to whole seconds), which
is one of the two values the specification allows. -/
theorem timeSpent_roundsHalfUp (pf : Platform) (root : DomNode)
    (added : List (List Nat)) (s : ObserverState) (t0 : Nat)
    (hsucc : checkNodesForSuccess root added pf = true)
    (hstart : s.solveStartTime = some t0)
    (hnoprev : s.lastSolveEmit = 0) :
    ∃ pl : SolvePayload,
      (processBatch pf root added (t0 + 7500) s).2 = some pl ∧
      pl.timeSpent = 8 ∧ (pl.timeSpent = 7 ∨ pl.timeSpent = 8) := by
  obtain ⟨_, hsome⟩ := processBatch_emit pf root added (t0 + 7500) s hsucc
    (by rw [hnoprev]; unfold SOLVE_COOLDOWN_MS; omega)
  have ht : (match s.solveStartTime with
      | some x => (t0 + 7500 - x + 500) / 1000
      | none => 0) = 8 := by
    rw [hstart]
    show (t0 + 7500 - t0 + 500) / 1000 = 8
    have h75 : t0 + 7500 - t0 = 7500 := by omega
    rw [h75]
  exact ⟨_, hsome, ht, Or.inr ht⟩

/-- Witness for C8: timer started at 100, success batch at 7600. -/
theorem timeSpent_roundsHalfUp_witness :
    ∃ pl : SolvePayload,
      (processBatch .leetcode accTree [[]] 7600
        { lastSolveEmit := 0, lastAttemptEmit := 0, solveStartTime := some 100,
          submissionAttempts := 0 }).2 = some pl ∧
      pl.timeSpent = 8 ∧ (pl.timeSpent = 7 ∨ pl.timeSpent = 8) :=
  timeSpent_roundsHalfUp .leetcode accTree [[]]
    { lastSolveEmit := 0, lastAttemptEmit := 0, solveStartTime := some 100,
      submissionAttempts := 0 } 100 (by decide) rfl rfl

/-! ## Claim C3: attempt counting across a Wrong Answer then an Accepted batch -/

/-- C3: from the initial observer state (any solve-timer value), a batch
containing only a "Wrong Answer" marker at `t1` (attempt cooldown elapsed
since initialization) counts exactly one attempt and emits nothing; an
"Accepted" batch at `t2`, after both cooldowns have elapsed, counts a
second attempt and emits one `SolveEvent` with `attempts = 2`. -/
theorem attemptCounting_scenario (st : Option Nat) (t1 t2 : Nat)
    (h1 : ATTEMPT_COOLDOWN_MS ≤ t1)
    (h2 : t1 + ATTEMPT_COOLDOWN_MS ≤ t2)
    (h3 : SOLVE_COOLDOWN_MS ≤ t2) :
    processBatch .leetcode waTree [[]] t1
        { lastSolveEmit := 0, lastAttemptEmit := 0, solveStartTime := st,
          submissionAttempts := 0 } =
      ({ lastSolveEmit := 0, lastAttemptEmit := t1, solveStartTime := st,
         submissionAttempts := 1 }, none) ∧
    ∃ pl : SolvePayload,
      processBatch .leetcode accTree [[]] t2
          { lastSolveEmit := 0, lastAttemptEmit := t1, solveStartTime := st,
            submissionAttempts := 1 } =
        ({ lastSolveEmit := t2, lastAttemptEmit := t2, solveStartTime := st,
           submissionAttempts := 2 }, some pl) ∧
      pl.attempts = 2 := by
  have hA1 : checkNodesForAttempt waTree [[]] .leetcode = true := by decide
  have hS1 : checkNodesForSuccess waTree [[]] .leetcode = false := by decide
  have hA2 : checkNodesForAttempt accTree [[]] .leetcode = true := by decide
  have hS2 : checkNodesForSuccess accTree [[]] .leetcode = true := by decide
  constructor
  · have hstep : attemptStep (checkNodesForAttempt waTree [[]] .leetcode) t1
        { lastSolveEmit := 0, lastAttemptEmit := 0, solveStartTime := st,
          submissionAttempts := 0 } =
        { lastSolveEmit := 0, lastAttemptEmit := t1, solveStartTime := st,
          submissionAttempts := 1 } := by
      unfold attemptStep
      rw [if_pos ⟨hA1, by show ATTEMPT_COOLDOWN_MS ≤ t1 - 0; omega⟩]
    simp only [processBatch, List.isEmpty_cons, Bool.false_eq_true, if_false, hstep, hS1]
    split
    · rfl
    · rfl
  · have hstep : attemptStep (checkNodesForAttempt accTree [[]] .leetcode) t2
        { lastSolveEmit := 0, lastAttemptEmit := t1, solveStartTime := st,
          submissionAttempts := 1 } =
        { lastSolveEmit := 0, lastAttemptEmit := t2, solveStartTime := st,
          submissionAttempts := 2 } := by
      unfold attemptStep
      rw [if_pos ⟨hA2, by show ATTEMPT_COOLDOWN_MS ≤ t2 - t1; unfold ATTEMPT_COOLDOWN_MS at *; omega⟩]
    have hsc : successCount (checkNodesForAttempt accTree [[]] .leetcode) t2
        { lastSolveEmit := 0, lastAttemptEmit := t2, solveStartTime := st,
          submissionAttempts := 2 } =
        { lastSolveEmit := 0, lastAttemptEmit := t2, solveStartTime := st,
          submissionAttempts := 2 } := by
      unfold successCount
      rw [if_neg]
      rintro (h | h)
      · exact h hA2
      · simp only [ATTEMPT_COOLDOWN_MS] at h
        simp at h
    simp only [processBatch, List.isEmpty_cons, Bool.false_eq_true, if_false, hstep, hS2, hsc]
    rw [if_neg (by show ¬(t2 - (0:Nat) < SOLVE_COOLDOWN_MS); unfold SOLVE_COOLDOWN_MS at *; omega)]
    refine ⟨emitSolveDetected
      { lastSolveEmit := t2, lastAttemptEmit := t2, solveStartTime := st,
        submissionAttempts := 2 } t2, ?_, rfl⟩
    rw [if_pos trivial]

/-- Witness for C3 at t1 = 2000, t2 = 4000 with no solve timer. -/
theorem attemptCounting_scenario_witness :
    processBatch .leetcode waTree [[]] 2000
        { lastSolveEmit := 0, lastAttemptEmit := 0, solveStartTime := none,
          submissionAttempts := 0 } =
      ({ lastSolveEmit := 0, lastAttemptEmit := 2000, solveStartTime := none,
         submissionAttempts := 1 }, none) ∧
    ∃ pl : SolvePayload,
      processBatch .leetcode accTree [[]] 4000
          { lastSolveEmit := 0, lastAttemptEmit := 2000, solveStartTime := none,
            submissionAttempts := 1 } =
        ({ lastSolveEmit := 4000, lastAttemptEmit := 4000, solveStartTime := none,
           submissionAttempts := 2 }, some pl) ∧
      pl.attempts = 2 :=
  attemptCounting_scenario none 2000 4000 (by decide) (by decide) (by decide)

/-! ## Claim C5: the inline accepted-rate pattern is not a verdict -/

/-- A detached element whose only child is a text node with the given text
(`textContent` is exactly that text). -/
def textLeafElem (s : String) : DomNode := .elem "" [] [.text s]

theorem textLeafElem_textAt (s : String) : textAt (textLeafElem s) [] = s := by
  simp [textAt, nodeAt, textLeafElem, DomNode.textContent, textContentList]

theorem textLeafElem_descPaths (s : String) :
    (textLeafElem s).elemDescPaths = [] := by
  simp [textLeafElem, DomNode.elemDescPaths, elemDescPathsFrom]

/-- C5: on LeetCode, an element node whose (already-trimmed) text matches
the inline accepted-rate pattern — even though it contains the substring
"Accepted" — classifies as neither an attempt nor a success. -/
theorem acceptedRate_not_verdict (s : String)
    (htrim : jsTrim s = s)
    (hrate : acceptedRateTest s = true)
    (_hsub : jsHasSub s "Accepted" = true) :
    checkNodesForAttempt (textLeafElem s) [[]] Platform.leetcode = false ∧
    checkNodesForSuccess (textLeafElem s) [[]] Platform.leetcode = false := by
  constructor
  · simp only [checkNodesForAttempt, List.any_cons, List.any_nil, Bool.or_false]
    simp only [attemptNode, textLeafElem, nodeAt]
    rw [if_neg (by simp)]
    rw [show textAt (DomNode.elem "" [] [DomNode.text s]) [] = s from textLeafElem_textAt s]
    rw [htrim]
    by_cases hatt : isAttemptText s Platform.leetcode = true
    · rw [if_pos hatt]
      simp [hrate]
    · rw [if_neg hatt]
      rw [show (DomNode.elem "" [] [DomNode.text s]).elemDescPaths = [] from
        textLeafElem_descPaths s]
      rfl
  · simp only [checkNodesForSuccess, List.any_cons, List.any_nil, Bool.or_false]
    simp only [successNode, textLeafElem, nodeAt]
    have hdet : SUCCESS_DETECTORS Platform.leetcode (DomNode.elem "" [] [DomNode.text s]) [] = false := by
      simp only [SUCCESS_DETECTORS, leetcodeSuccess, elPath, nodeAt]
      rw [show textAt (DomNode.elem "" [] [DomNode.text s]) [] = s from textLeafElem_textAt s]
      rw [if_pos hrate]
    rw [hdet]
    rw [show (DomNode.elem "" [] [DomNode.text s]).elemDescPaths = [] from
      textLeafElem_descPaths s]
    rfl

/-- Witness for C5 at the specification's example text. -/
theorem acceptedRate_not_verdict_witness :
    checkNodesForAttempt (textLeafElem "37 Accepted / 58") [[]] Platform.leetcode = false ∧
    checkNodesForSuccess (textLeafElem "37 Accepted / 58") [[]] Platform.leetcode = false :=
  acceptedRate_not_verdict "37 Accepted / 58" (by decide) (by decide) (by decide)

/-! ## Claims C6 and C10: extractor boundary behaviour -/

theorem extractorDefined_true (p : Platform) : extractorDefined p = true := by
  cases p <;> rfl

/-- C6: for every detected platform, if no extraction strategy existed for
it or the strategy throws, `extractProblemMetadata` returns the empty
metadata shape annotated with the detected platform and the page URL; the
first disjunct is vacuous because the `EXTRACTORS` table covers every
detectable platform. -/
theorem extractor_errors_swallowed (url : String) (q : String → Bool)
    (exec : Platform → Except Unit ProblemMeta) (p : Platform)
    (hp : (detectPlatform url q).platform = some p)
    (hpp : (detectPlatform url q).problemPage = true)
    (hfail : extractorDefined p = false ∨ exec p = Except.error ()) :
    extractProblemMetadata url q exec =
      { emptyMeta with platform := some p, url := some url } := by
  rcases hfail with hundef | herr
  · rw [extractorDefined_true] at hundef
    exact absurd hundef (by simp)
  · simp only [extractProblemMetadata]
    rw [hp, hpp]
    simp only [Bool.true_eq_false, if_false]
    rw [extractorDefined_true]
    simp only [Bool.true_eq_false, if_false]
    rw [herr]

/-- Witness for C6: a LeetCode problem URL, markers present, and a strategy
run that throws. -/
theorem extractor_errors_swallowed_witness :
    extractProblemMetadata "https://leetcode.com/problems/two-sum/" (fun _ => true)
      (fun _ => Except.error ()) =
      { emptyMeta with platform := some Platform.leetcode, url := some "https://leetcode.com/problems/two-sum/" } :=
  extractor_errors_swallowed "https://leetcode.com/problems/two-sum/" (fun _ => true)
    (fun _ => Except.error ()) Platform.leetcode (by decide) (by decide) (Or.inr rfl)

/-- C10: when a platform is detected from the URL but the DOM markers are
absent (not a problem page), `extractProblemMetadata` returns the fully
empty record — `platform` and `url` both `none`. -/
theorem metadata_empty_when_not_problemPage (url : String) (q : String → Bool)
    (exec : Platform → Except Unit ProblemMeta) (p : Platform)
    (hp : (detectPlatform url q).platform = some p)
    (hnp : (detectPlatform url q).problemPage = false) :
    extractProblemMetadata url q exec = emptyMeta := by
  simp only [extractProblemMetadata]
  rw [hp, hnp]
  rfl

/-- Witness for C10: a LeetCode problem URL with every DOM query failing. -/
theorem metadata_empty_when_not_problemPage_witness :
    extractProblemMetadata "https://leetcode.com/problems/two-sum/" (fun _ => false)
      (fun _ => Except.error ()) = emptyMeta :=
  metadata_empty_when_not_problemPage "https://leetcode.com/problems/two-sum/"
    (fun _ => false) (fun _ => Except.error ()) Platform.leetcode (by decide) (by decide)

/-! ## Claim C7: tag deduplication and the length bound -/

theorem tagFold_go_nodup (keep : String → Bool) (raws : List String) :
    ∀ acc : List String, acc.Nodup →
      (raws.foldl
        (fun acc raw =>
          let tag := jsTrim raw
          if keep tag = true ∧ tag ∉ acc then acc ++ [tag] else acc)
        acc).Nodup := by
  induction raws with
  | nil => intro acc h; exact h
  | cons r rs ih =>
    intro acc h
    simp only [List.foldl_cons]
    apply ih
    by_cases hc : (keep (jsTrim r) = true ∧ jsTrim r ∉ acc)
    · rw [if_pos hc]
      refine List.nodup_append.mpr ⟨h, List.nodup_singleton _, ?_⟩
      intro x hx hx1
      rw [List.mem_singleton] at hx1
      subst hx1
      exact hc.2 hx
    · rw [if_neg hc]
      exact h

/-- Every element of the tag fold either was in the accumulator or passes
the platform's keep condition. -/
theorem tagFold_go_keep (keep : String → Bool) (raws : List String) :
    ∀ acc : List String, ∀ t ∈ (raws.foldl
        (fun acc raw =>
          let tag := jsTrim raw
          if keep tag = true ∧ tag ∉ acc then acc ++ [tag] else acc)
        acc), t ∈ acc ∨ keep t = true := by
  induction raws with
  | nil => intro acc t ht; exact Or.inl ht
  | cons r rs ih =>
    intro acc t ht
    simp only [List.foldl_cons] at ht
    rcases ih _ t ht with hmem | hk
    · by_cases hc : (keep (jsTrim r) = true ∧ jsTrim r ∉ acc)
      · rw [if_pos hc] at hmem
        rcases List.mem_append.mp hmem with h | h
        · exact Or.inl h
        · rw [List.mem_singleton] at h
          subst h
          exact Or.inr hc.1
      · rw [if_neg hc] at hmem
        exact Or.inl hmem
    · exact Or.inr hk

theorem tagFold_nodup (keep : String → Bool) (raws : List String) :
    (tagFold keep raws).Nodup :=
  tagFold_go_nodup keep raws [] List.nodup_nil

theorem tagFold_keep (keep : String → Bool) (raws : List String) :
    ∀ t ∈ tagFold keep raws, keep t = true := by
  intro t ht
  rcases tagFold_go_keep keep raws [] t ht with h | h
  · exact absurd h (List.not_mem_nil t)
  · exact h

/-- C7 (amended): every extractor produces a duplicate-free tag sequence
(exact string match, first-seen position); the 50-unit length bound is
enforced by the gfg extractor only. -/
theorem tags_nodup_and_gfg_bound (lv : LeetView) (cv : CfView) (gv : GfgView) :
    (EXTRACTORS.leetcode lv).tags.Nodup ∧
    (EXTRACTORS.codeforces cv).tags.Nodup ∧
    (EXTRACTORS.gfg gv).tags.Nodup ∧
    (∀ t ∈ (EXTRACTORS.gfg gv).tags, jsLen t < 50) := by
  refine ⟨tagFold_nodup _ _, ?_, tagFold_nodup _ _, ?_⟩
  · show (match cv.roundbox with
      | some (_, tagTexts) => tagFold cfTagKeep tagTexts
      | none => ([] : List String)).Nodup
    cases cv.roundbox with
    | none => exact List.nodup_nil
    | some rb => exact tagFold_nodup _ _
  · intro t ht
    have hk := tagFold_keep gfgTagKeep gv.tagEls t ht
    simp only [gfgTagKeep, Bool.and_eq_true, decide_eq_true_eq] at hk
    exact hk.2

/-- C7 counterexample: the LeetCode extractor keeps a 60-character tag, so
the claimed universal 50-character bound fails on the code. -/
theorem tags_lengthBound_cex :
    ∃ t ∈ (EXTRACTORS.leetcode
      { href := "", pathname := "", titleEl := none, diffEl := none,
        tagEls := [String.mk (List.replicate 60 'a')] } : ProblemMeta).tags,
      50 < jsLen t := by
  refine ⟨String.mk (List.replicate 60 'a'), ?_, ?_⟩ <;> decide

/-- Example document views used to instantiate the tag lemmas. -/
def leetViewEx : LeetView :=
  { href := "", pathname := "", titleEl := none, diffEl := none,
    tagEls := ["Array", "Array", "Hash Table"] }

def cfViewEx : CfView :=
  { href := "", docTitle := "", titleEl := none,
    roundbox := some ("*1500", ["*1500", "dp", "dp"]) }

def gfgViewEx : GfgView :=
  { href := "", pathname := "", titleEl := none, diffEl := none,
    tagEls := ["dp", "dp", "math"] }

/-- Witness for the amended C7 at concrete document views. -/
theorem tags_nodup_and_gfg_bound_witness :
    (EXTRACTORS.gfg gfgViewEx).tags.Nodup ∧
    (∀ t ∈ (EXTRACTORS.gfg gfgViewEx).tags, jsLen t < 50) :=
  ⟨(tags_nodup_and_gfg_bound leetViewEx cfViewEx gfgViewEx).2.2.1,
   (tags_nodup_and_gfg_bound leetViewEx cfViewEx gfgViewEx).2.2.2⟩
